import Mathlib

/-
Shallow embedding of the CAP LTER arthropods dashboard data pipeline
(src/main.py and src/streamlit_app.py).

A pandas DataFrame of observation records is modelled as a `List Row`.
Column values:
  * `sample_date` is `Option Date`: `none` models a NaT produced by
    `pd.to_datetime(..., errors="coerce")` on an unparseable date.
  * `count` is `Int`: the result of
    `pd.to_numeric(..., errors="coerce").fillna(0).astype(int)`.
  * `lat`/`lon` are `Option Rat`: `none` models a NaN left by the
    left-merge with the site coordinate lookup when the site is absent.
  * `region3` is the land-use label after `fillna("Unknown")`.
A pandas groupby with `sort=True` (the default) is modelled as: deduplicate
the key column, sort the keys, and sum the `count` column per key.
-/

namespace CaplterDash

/-- A parsed calendar date (pandas Timestamp, at day granularity as used by
the dashboard: only year, month, quarter and day-level comparisons occur). -/
structure Date where
  year : Int
  month : Nat
  day : Nat
deriving DecidableEq, Repr

/-- Chronological comparison of two dates, as pandas Timestamp `<=`. -/
def dateLE (a b : Date) : Bool :=
  (a.year < b.year) ||
    (a.year = b.year &&
      ((a.month < b.month) || (a.month = b.month && a.day ≤ b.day)))

/-- One observation record after the normalization block of the pipeline. -/
structure Row where
  site_code : String
  display_name : String
  trap_name : String
  sample_date : Option Date
  count : Int
  lat : Option Rat
  lon : Option Rat
  region3 : String
deriving DecidableEq, Repr

/-- Derived `year` column: `arth["sample_date"].dt.year`; NaT gives NaN,
modelled as `none`. -/
def rowYear (r : Row) : Option Int :=
  r.sample_date.map (fun d => d.year)

/-- Derived `month` column:
`arth["sample_date"].dt.to_period("M").astype(str)`.
For a NaT the period is NaT and `astype(str)` renders the string "NaT",
so every row gets a (string) month label. -/
def monthLabel : Option Date → String
  | none => "NaT"
  | some d =>
      toString d.year ++ "-" ++ (if d.month < 10 then "0" else "") ++ toString d.month

/-- Calendar quarter of a month number (pandas `dt.quarter`). -/
def quarterOfMonth (m : Nat) : Nat := (m + 2) / 3

/-- Derived `quarter` column:
`"Q" + arth["sample_date"].dt.quarter.astype("Int64").astype(str)`.
For a NaT the nullable-integer quarter is NA, rendered "<NA>" by
`astype(str)`, so the label becomes the string "Q<NA>". -/
def quarterLabel : Option Date → String
  | none => "Q<NA>"
  | some d => "Q" ++ toString (quarterOfMonth d.month)

/-! ### Count normalization (main.py line 26, streamlit_app.py line 28) -/

/-- The raw content of one cell of the `count` column before
`pd.to_numeric(..., errors="coerce")`: a missing cell, an unparseable
string (coerced to NaN), or a parseable numeric value. -/
inductive RawCount where
  | missing
  | invalid
  | numeric (q : Rat)
deriving DecidableEq, Repr

/-- Truncation toward zero, the semantics of the numpy float-to-int cast
performed by `astype(int)`. -/
def truncQ (q : Rat) : Int :=
  if 0 ≤ q then ⌊q⌋ else ⌈q⌉

/-- `pd.to_numeric(x, errors="coerce").fillna(0).astype(int)` applied to one
cell: missing and unparseable cells become NaN, `fillna` turns NaN into 0,
and the integer cast truncates toward zero. -/
def normalize_count : RawCount → Int
  | RawCount.missing => 0
  | RawCount.invalid => 0
  | RawCount.numeric q => truncQ q

/-! ### Shannon index (main.py lines 73-78) -/

/-- The body of `shannon_index` after the positivity filter: 0.0 for an
empty array, otherwise the negative sum of p*ln(p) over the proportions p
of the entries. -/
noncomputable def shannonOfPos (pos : List Rat) : Real :=
  if pos = [] then 0
  else
    -((pos.map (fun c : Rat =>
        ((c : Real) / ((pos.sum : Rat) : Real)) *
          Real.log ((c : Real) / ((pos.sum : Rat) : Real)))).sum)

/-- `shannon_index(counts)`: keep the strictly positive entries
(`counts = counts[counts > 0]`); if none remain return 0.0; otherwise
return the negative sum of p*ln(p) over the proportions p. -/
noncomputable def shannon_index (counts : List Rat) : Real :=
  shannonOfPos (counts.filter (fun c => decide (0 < c)))

/-! ### Groupby keys and key orders

Pandas `groupby` with the default `sort=True` deduplicates the key column
and sorts the keys; the sums below follow that shape.  Pandas sorts Python
strings by code point, spelled out here as a kernel-computable
lexicographic order on the character lists. -/

/-- Code-point lexicographic comparison of two character lists. -/
def charsLE : List Char → List Char → Bool
  | [], _ => true
  | _ :: _, [] => false
  | a :: as, b :: bs =>
      a.toNat < b.toNat || (a.toNat = b.toNat && charsLE as bs)

/-- Code-point lexicographic order on strings: the sort order pandas uses
for string group keys. -/
def strLE (a b : String) : Prop :=
  charsLE a.data b.data = true

instance : DecidableRel strLE := fun a b => by
  unfold strLE; infer_instance

/-- Lexicographic order on pairs whose first component is a string group
key: the key order of a two-column pandas groupby or sort. -/
def lexPairLE {β : Type} (le : β → β → Prop) (a b : String × β) : Prop :=
  (a.1 = b.1 ∧ le a.2 b.2) ∨ (a.1 ≠ b.1 ∧ strLE a.1 b.1)

instance {β : Type} (le : β → β → Prop) [DecidableRel le] :
    DecidableRel (lexPairLE le) := fun a b => by
  unfold lexPairLE; infer_instance

/-- Key order of the monthly time-series groupby, which is also the order
produced by the subsequent `ts.sort_values("month")`. -/
def strPairLE (a b : String × String) : Prop :=
  lexPairLE strLE a b

instance : DecidableRel strPairLE := fun a b => by
  unfold strPairLE; infer_instance

/-- Key order of the diversity groupby on (site code, year). -/
def siteYearLE (a b : String × Int) : Prop :=
  lexPairLE (fun x y : Int => x ≤ y) a b

instance : DecidableRel siteYearLE := fun a b => by
  unfold siteYearLE; infer_instance

/-- Lexicographic order on (lat, lon) coordinate pairs. -/
def ratPairLE (a b : Rat × Rat) : Prop :=
  (a.1 = b.1 ∧ a.2 ≤ b.2) ∨ (a.1 ≠ b.1 ∧ a.1 ≤ b.1)

instance : DecidableRel ratPairLE := fun a b => by
  unfold ratPairLE; infer_instance

/-- Key order of the map groupby on (site code, lat, lon). -/
def siteCoordLE (a b : String × Rat × Rat) : Prop :=
  lexPairLE ratPairLE a b

instance : DecidableRel siteCoordLE := fun a b => by
  unfold siteCoordLE; infer_instance

/-- Total count of one taxon within a group of rows:
`g.groupby(taxon_col)["count"].sum()` evaluated at one taxon. -/
def taxonTotal (g : List Row) (t : String) : Int :=
  ((g.filter (fun r => decide (r.display_name = t))).map
    (fun r => r.count)).sum

/-- `df.groupby(taxon_col)["count"].sum()` as an association list: distinct
taxa in sorted key order (groupby `sort=True`), each with its count total. -/
def taxonTotals (rows : List Row) : List (String × Int) :=
  (List.insertionSort strLE ((rows.map (fun r => r.display_name)).dedup)).map
    (fun t => (t, taxonTotal rows t))

/-! ### top_taxa (main.py lines 95-99, streamlit_app.py lines 72-76) -/

/-- `top_taxa(df, n)` of main.py: `[]` when the taxon column is absent,
otherwise the first `n` taxa of the per-taxon totals sorted by total,
descending (`sort_values(ascending=False)` after the key-sorted groupby). -/
def top_taxa (hasTaxonCol : Bool) (rows : List Row) (n : Nat) : List String :=
  if !hasTaxonCol then []
  else
    ((List.insertionSort (fun a b : String × Int => b.2 ≤ a.2)
        (taxonTotals rows)).take n).map (fun p => p.1)

/-! ### compute_diversity (main.py lines 80-93) -/

/-- One output row of `compute_diversity`. -/
structure DivRow where
  site_code : String
  year : Int
  richness : Nat
  shannon : Real

/-- The rows of one `groupby(["site_code","year"])` group.  Rows whose
`year` is missing (NaT date) belong to no group: the groupby default
`dropna=True` drops NaN keys. -/
def groupRows (rows : List Row) (site : String) (yr : Int) : List Row :=
  rows.filter (fun r => decide (r.site_code = site ∧ rowYear r = some yr))

/-- The per-taxon count totals of one diversity group, in the groupby key
order: `g.groupby(taxon_col)["count"].sum().values`. -/
def taxonCounts (g : List Row) : List Int :=
  (List.insertionSort strLE
      ((g.map (fun r => r.display_name)).dedup)).map (taxonTotal g)

/-- `compute_diversity(df)`: empty when the taxon column or the year column
is absent; otherwise one row per (site, year) group carrying the number of
distinct taxa (`nunique`) and the Shannon index of the per-taxon totals. -/
noncomputable def compute_diversity (hasTaxonCol hasYearCol : Bool)
    (rows : List Row) : List DivRow :=
  if !(hasTaxonCol && hasYearCol) then []
  else
    (List.insertionSort siteYearLE
        ((rows.filterMap (fun r =>
          (rowYear r).map (fun y => (r.site_code, y)))).dedup)).map
      (fun k =>
        let g := groupRows rows k.1 k.2
        { site_code := k.1
          year := k.2
          richness := ((g.map (fun r => r.display_name)).dedup).length
          shannon := shannon_index ((taxonCounts g).map
            (fun c : Int => (c : Rat))) })

/-! ### apply_filters (main.py lines 181-193, streamlit_app.py 78-86) -/

/-- Whether a row passes the date-range test of `apply_filters`:
`(g["sample_date"] >= s) & (g["sample_date"] <= e)`; a NaT date compares
False on both sides. -/
def dateInRange (s e : Date) (r : Row) : Bool :=
  match r.sample_date with
  | some d => dateLE s d && dateLE d e
  | none => false

/-- `apply_filters` of main.py: each of the site/taxon/trap filters is
skipped when its selection is empty (Python falsiness of `[]`/`None`), and
the date filter is applied only when both bounds are supplied. -/
def apply_filters (rows : List Row) (sites taxa traps : List String)
    (start_date end_date : Option Date) : List Row :=
  let g1 := if sites.isEmpty then rows
    else rows.filter (fun r => decide (r.site_code ∈ sites))
  let g2 := if taxa.isEmpty then g1
    else g1.filter (fun r => decide (r.display_name ∈ taxa))
  let g3 := if traps.isEmpty then g2
    else g2.filter (fun r => decide (r.trap_name ∈ traps))
  match start_date, end_date with
  | some s, some e => g3.filter (dateInRange s e)
  | _, _ => g3

/-- Whether a row passes `g["year"].isin(years)`: a NaN year is in no
selection. -/
def yearIn (years : List Int) (r : Row) : Bool :=
  match rowYear r with
  | some y => decide (y ∈ years)
  | none => false

/-- `apply_filters` of streamlit_app.py: site, taxon and year selections,
each skipped when empty. -/
def apply_filters_st (rows : List Row) (sites taxa : List String)
    (years : List Int) : List Row :=
  let g1 := if sites.isEmpty then rows
    else rows.filter (fun r => decide (r.site_code ∈ sites))
  let g2 := if taxa.isEmpty then g1
    else g1.filter (fun r => decide (r.display_name ∈ taxa))
  if years.isEmpty then g2 else g2.filter (yearIn years)

/-! ### The chart aggregates of update_visuals (main.py lines 210-288) -/

/-- Monthly time series (main.py lines 214-216):
`g.groupby(["month","site_code"], dropna=False)["count"].sum()` followed by
`sort_values("month")`.  Every row has a month label (a NaT date yields the
string "NaT"), so no row is dropped. -/
def monthly_ts (rows : List Row) : List ((String × String) × Int) :=
  (List.insertionSort strPairLE
      ((rows.map (fun r => (monthLabel r.sample_date, r.site_code))).dedup)).map
    (fun k =>
      (k, ((rows.filter (fun r =>
        decide ((monthLabel r.sample_date, r.site_code) = k))).map
          (fun r => r.count)).sum))

/-- Rank of a quarter label under the ordered categorical
`pd.Categorical(..., categories=["Q1","Q2","Q3","Q4"], ordered=True)`;
labels outside the categories become NaN, which `sort_values` places last. -/
def qrank (q : String) : Nat :=
  if q = "Q1" then 0
  else if q = "Q2" then 1
  else if q = "Q3" then 2
  else if q = "Q4" then 3
  else 4

/-- The order of `lu_agg.sort_values(["region3","quarter"])`: region label
first, then quarter categorical rank. -/
def quarterSortLE (a b : (String × String) × Int) : Prop :=
  lexPairLE (fun q1 q2 => qrank q1 ≤ qrank q2) a.1 b.1

instance : DecidableRel quarterSortLE := fun a b => by
  unfold quarterSortLE; infer_instance

/-- Quarter-by-region aggregate (main.py lines 245-258, streamlit_app.py
153-163): empty when the filtered subset is empty; otherwise
`g.groupby(["region3","quarter"], dropna=False)["count"].sum()` sorted by
region and by quarter categorical rank. -/
def quarter_region_agg (rows : List Row) : List ((String × String) × Int) :=
  if rows.isEmpty then []
  else
    List.insertionSort quarterSortLE
      (((rows.map (fun r => (r.region3, quarterLabel r.sample_date))).dedup).map
        (fun k =>
          (k, ((rows.filter (fun r =>
            decide ((r.region3, quarterLabel r.sample_date) = k))).map
              (fun r => r.count)).sum)))

/-- Map aggregate (main.py lines 275-276, streamlit_app.py 181-182):
`g.groupby(["site_code","lat","lon"], dropna=True)["count"].sum()` — rows
whose lat or lon is missing carry a NaN key component and are dropped by
`dropna=True`. -/
def map_agg (rows : List Row) : List ((String × Rat × Rat) × Int) :=
  let rowsC := rows.filter (fun r => r.lat.isSome && r.lon.isSome)
  (List.insertionSort siteCoordLE
      ((rowsC.map (fun r => (r.site_code, r.lat.getD 0, r.lon.getD 0))).dedup)).map
    (fun k =>
      (k, ((rowsC.filter (fun r =>
        decide ((r.site_code, r.lat.getD 0, r.lon.getD 0) = k))).map
          (fun r => r.count)).sum))

/-! ### Specification-side definitions

The following definitions restate, in the words of the specification, what
a filtered subset and the diversity numbers should be; the theorems below
compare them with the pipeline functions above. -/

/-- Row predicate of the specification for the callback dashboard filters:
a row is kept exactly when it matches every supplied filter (an empty
selection constrains nothing, and the date filter is supplied only when
both bounds are). -/
def matchesMain (sites taxa traps : List String) (sd ed : Option Date)
    (r : Row) : Bool :=
  (sites.isEmpty || decide (r.site_code ∈ sites)) &&
    ((taxa.isEmpty || decide (r.display_name ∈ taxa)) &&
      ((traps.isEmpty || decide (r.trap_name ∈ traps)) &&
        (match sd, ed with
         | some s, some e => dateInRange s e r
         | _, _ => true)))

/-- Row predicate of the specification for the sidebar dashboard filters. -/
def matchesSt (sites taxa : List String) (years : List Int) (r : Row) : Bool :=
  (sites.isEmpty || decide (r.site_code ∈ sites)) &&
    ((taxa.isEmpty || decide (r.display_name ∈ taxa)) &&
      (years.isEmpty || yearIn years r))

/-- Specification richness of a group: the number of distinct taxa present. -/
def groupTaxaCard (g : List Row) : Nat :=
  ((g.map (fun r => r.display_name)).toFinset).card

/-- The taxa of a group with nonzero count total, the index set of the
specification's Shannon sum. -/
def shannonSpecTaxa (g : List Row) : List String :=
  ((g.map (fun r => r.display_name)).dedup).filter
    (fun t => decide (¬ taxonTotal g t = 0))

/-- Specification Shannon index of a group: the negative sum over taxa of
(proportion times natural log of proportion) of per-taxon count totals,
using only taxa with nonzero count, and exactly 0.0 when no such taxon
exists. -/
noncomputable def shannonSpec (g : List Row) : Real :=
  if shannonSpecTaxa g = [] then 0
  else
    -(((shannonSpecTaxa g).map (fun t =>
        (((taxonTotal g t : Rat) : Real) /
            ((((shannonSpecTaxa g).map (fun u => (taxonTotal g u : Rat))).sum : Rat) : Real)) *
          Real.log
            (((taxonTotal g t : Rat) : Real) /
              ((((shannonSpecTaxa g).map (fun u => (taxonTotal g u : Rat))).sum : Rat) : Real)))).sum)

/-! ### Concrete records used by witnesses and counterexamples -/

/-- First row of the end-to-end diversity example of the specification. -/
def exRow1 : Row :=
  ⟨"S1", "Ant", "T1", some ⟨2020, 1, 15⟩, 5, some 1, some 2, "Urban"⟩

/-- Second row of the end-to-end diversity example of the specification. -/
def exRow2 : Row :=
  ⟨"S1", "Bee", "T1", some ⟨2020, 1, 20⟩, 5, some 1, some 2, "Urban"⟩

/-- The two-row input of the end-to-end diversity example. -/
def exampleRows : List Row := [exRow1, exRow2]

/-- A record whose sample date failed to parse (NaT). -/
def rowNaT : Row := ⟨"S1", "Ant", "T1", none, 3, none, none, "Urban"⟩

/-- A record whose site has no entry in the coordinate lookup. -/
def rowNoCoord : Row :=
  ⟨"S2", "Ant", "T1", some ⟨2021, 7, 1⟩, 4, none, some 2, "Desert"⟩

/-- Tie-ranking example: taxon "A", count 5. -/
def rowTieA : Row :=
  ⟨"S1", "A", "T1", some ⟨2020, 1, 15⟩, 5, some 1, some 2, "Urban"⟩

/-- Tie-ranking example: taxon "B", count 5. -/
def rowTieB : Row :=
  ⟨"S1", "B", "T1", some ⟨2020, 1, 20⟩, 5, some 1, some 2, "Urban"⟩

/-! ### Properties of the string key order -/

theorem charsLE_refl : ∀ a : List Char, charsLE a a = true
  | [] => rfl
  | a :: as => by simp [charsLE, charsLE_refl as]

theorem charsLE_total : ∀ a b : List Char, charsLE a b = true ∨ charsLE b a = true
  | [], _ => Or.inl rfl
  | _ :: _, [] => Or.inr rfl
  | a :: as, b :: bs => by
    rcases Nat.lt_trichotomy a.toNat b.toNat with h | h | h
    · exact Or.inl (by simp [charsLE, h])
    · rcases charsLE_total as bs with ih | ih
      · exact Or.inl (by simp [charsLE, h, ih])
      · exact Or.inr (by simp [charsLE, h.symm, ih])
    · exact Or.inr (by simp [charsLE, h])

theorem charsLE_trans :
    ∀ a b c : List Char, charsLE a b = true → charsLE b c = true →
      charsLE a c = true
  | [], _, _, _, _ => rfl
  | _ :: _, [], _, hab, _ => by simp [charsLE] at hab
  | _ :: _, _ :: _, [], _, hbc => by simp [charsLE] at hbc
  | a :: as, b :: bs, c :: cs, hab, hbc => by
    simp only [charsLE, Bool.or_eq_true, Bool.and_eq_true, decide_eq_true_eq] at hab hbc ⊢
    rcases hab with hab | ⟨hab, hab2⟩ <;> rcases hbc with hbc | ⟨hbc, hbc2⟩
    · exact Or.inl (hab.trans hbc)
    · exact Or.inl (hbc ▸ hab)
    · exact Or.inl (hab ▸ hbc)
    · exact Or.inr ⟨hab.trans hbc, charsLE_trans as bs cs hab2 hbc2⟩

theorem charsLE_antisymm :
    ∀ a b : List Char, charsLE a b = true → charsLE b a = true → a = b
  | [], [], _, _ => rfl
  | [], _ :: _, _, hba => by simp [charsLE] at hba
  | _ :: _, [], hab, _ => by simp [charsLE] at hab
  | a :: as, b :: bs, hab, hba => by
    simp only [charsLE, Bool.or_eq_true, Bool.and_eq_true, decide_eq_true_eq] at hab hba
    rcases hab with hab | ⟨hab, hab2⟩ <;> rcases hba with hba | ⟨hba, hba2⟩
    · exact absurd (hab.trans hba) (lt_irrefl _)
    · exact absurd hab (by omega)
    · exact absurd hba (by omega)
    · exact by
        have hc : a = b := Char.ext (UInt32.ext hab)
        rw [hc, charsLE_antisymm as bs hab2 hba2]

instance : IsTotal String strLE :=
  ⟨fun a b => charsLE_total a.data b.data⟩

instance : IsTrans String strLE :=
  ⟨fun a b c => charsLE_trans a.data b.data c.data⟩

instance : IsRefl String strLE :=
  ⟨fun a => charsLE_refl a.data⟩

instance : IsAntisymm String strLE :=
  ⟨fun a b h1 h2 => String.ext (charsLE_antisymm a.data b.data h1 h2)⟩

instance : IsTotal ((String × String) × Int) quarterSortLE := by
  constructor
  intro a b
  by_cases h : a.1.1 = b.1.1
  · rcases Nat.le_total (qrank a.1.2) (qrank b.1.2) with hq | hq
    · exact Or.inl (Or.inl ⟨h, hq⟩)
    · exact Or.inr (Or.inl ⟨h.symm, hq⟩)
  · rcases total_of strLE a.1.1 b.1.1 with hs | hs
    · exact Or.inl (Or.inr ⟨h, hs⟩)
    · exact Or.inr (Or.inr ⟨fun he => h he.symm, hs⟩)

instance : IsTrans ((String × String) × Int) quarterSortLE := by
  constructor
  intro a b c hab hbc
  rcases hab with ⟨hab, haq⟩ | ⟨hab, has⟩ <;> rcases hbc with ⟨hbc, hbq⟩ | ⟨hbc, hbs⟩
  · exact Or.inl ⟨hab.trans hbc, le_trans haq hbq⟩
  · exact Or.inr ⟨hab ▸ hbc, hab ▸ hbs⟩
  · exact Or.inr ⟨hbc ▸ hab, hbc ▸ has⟩
  · by_cases hac : a.1.1 = c.1.1
    · exact absurd (antisymm (α := String) (r := strLE) has (hac ▸ hbs)) hab
    · exact Or.inr ⟨hac, trans_of strLE has hbs⟩

/-! ### Claim C2: count coercion -/

/-- C2 counterexample: the claim says coercion yields a non-negative
integer, but the parseable input -3 is coerced to -3, which is negative. -/
theorem c2_count_coercion_counterexample :
    normalize_count (RawCount.numeric (-3)) = -3 ∧
      ¬ (0 ≤ normalize_count (RawCount.numeric (-3))) :=
  ⟨by decide, by decide⟩

/-- C2 (amended): count normalization coerces every input to an integer,
not necessarily non-negative: non-numeric or missing input yields exactly
0, integer input is preserved (including negative values), and fractional
input is truncated toward zero (floor for non-negative, ceiling for
negative values). -/
theorem c2_count_coercion_amended :
    normalize_count RawCount.missing = 0 ∧
    normalize_count RawCount.invalid = 0 ∧
    (∀ n : Int, normalize_count (RawCount.numeric (n : Rat)) = n) ∧
    (∀ q : Rat, 0 ≤ q → normalize_count (RawCount.numeric q) = ⌊q⌋) ∧
    (∀ q : Rat, q < 0 → normalize_count (RawCount.numeric q) = ⌈q⌉) := by
  refine ⟨rfl, rfl, ?_, ?_, ?_⟩
  · intro n
    rcases le_or_lt 0 n with h | h
    · have hq : (0 : Rat) ≤ (n : Rat) := by exact_mod_cast h
      simp [normalize_count, truncQ, hq]
    · have hq : ¬ ((0 : Rat) ≤ (n : Rat)) := by
        rw [not_le]; exact_mod_cast h
      simp [normalize_count, truncQ, hq]
  · intro q h
    simp [normalize_count, truncQ, h]
  · intro q h
    simp [normalize_count, truncQ, not_le.mpr h]

/-- C2 witness: the amended theorem applied to the fractional inputs 7/2
and -7/2 and to a missing cell. -/
theorem c2_count_coercion_amended_witness :
    (0 ≤ (7 : Rat)/2 ∧ normalize_count (RawCount.numeric (7/2)) = ⌊(7 : Rat)/2⌋) ∧
    ((-7 : Rat)/2 < 0 ∧ normalize_count (RawCount.numeric ((-7)/2)) = ⌈(-7 : Rat)/2⌉) ∧
    normalize_count RawCount.missing = 0 :=
  ⟨⟨by norm_num, c2_count_coercion_amended.2.2.2.1 (7/2) (by norm_num)⟩,
   ⟨by norm_num, c2_count_coercion_amended.2.2.2.2 ((-7)/2) (by norm_num)⟩,
   c2_count_coercion_amended.1⟩

/-! ### Claim C10: the date filter needs both bounds -/

/-- C10: the date-range filter of the callback dashboard is applied only
when both a start date and an end date are supplied; with either bound
missing, filtering is identical to supplying no date bounds at all. -/
theorem c10_date_filter_both_bounds :
    ∀ (rows : List Row) (sites taxa traps : List String) (sd ed : Option Date),
      sd = none ∨ ed = none →
        apply_filters rows sites taxa traps sd ed =
          apply_filters rows sites taxa traps none none := by
  intro rows sites taxa traps sd ed h
  rcases h with h | h
  · subst h; cases ed <;> rfl
  · subst h; cases sd <;> rfl

/-- C10 witness: a single supplied bound on the example rows. -/
theorem c10_date_filter_both_bounds_witness :
    apply_filters exampleRows ["S1"] [] [] (some ⟨2020, 1, 1⟩) none =
      apply_filters exampleRows ["S1"] [] [] none none :=
  c10_date_filter_both_bounds exampleRows ["S1"] [] [] (some ⟨2020, 1, 1⟩) none
    (Or.inr rfl)

/-! ### Claim C9: aggregates degrade to empty results -/

/-- C9: with the taxon or year column absent, or with an empty filtered
subset, `compute_diversity` and `top_taxa` return empty results (the
functions are total, so no error is raised). -/
theorem c9_missing_columns_empty :
    ∀ (ht hy : Bool) (rows : List Row) (n : Nat),
      (ht = false ∨ hy = false → compute_diversity ht hy rows = []) ∧
      compute_diversity ht hy ([] : List Row) = [] ∧
      top_taxa false rows n = [] ∧
      top_taxa ht ([] : List Row) n = [] := by
  intro ht hy rows n
  refine ⟨?_, ?_, rfl, ?_⟩
  · rintro (h | h) <;> subst h
    · rfl
    · cases ht <;> rfl
  · cases ht <;> cases hy <;> rfl
  · cases ht
    · rfl
    · simp [top_taxa, taxonTotals]

/-- C9 witness: the empty-result policy applied to the example rows with a
missing taxon column and to an empty table. -/
theorem c9_missing_columns_empty_witness :
    compute_diversity false true exampleRows = [] ∧
    compute_diversity true true ([] : List Row) = [] ∧
    top_taxa false exampleRows 10 = [] :=
  ⟨(c9_missing_columns_empty false true exampleRows 10).1 (Or.inl rfl),
   (c9_missing_columns_empty true true exampleRows 10).2.1,
   (c9_missing_columns_empty false true exampleRows 10).2.2.1⟩

/-! ### Claim C3: filter semantics -/

theorem filter_if_skip (l : List Row) (cond : Bool) (p : Row → Bool) :
    (if cond then l else l.filter p) = l.filter (fun r => cond || p r) := by
  cases cond
  · simp
  · simp

theorem apply_filters_eq_filter (rows : List Row)
    (sites taxa traps : List String) (sd ed : Option Date) :
    apply_filters rows sites taxa traps sd ed =
      rows.filter (matchesMain sites taxa traps sd ed) := by
  simp only [apply_filters]
  rw [filter_if_skip, filter_if_skip, filter_if_skip]
  cases sd <;> cases ed <;>
    simp only [List.filter_filter] <;>
    refine List.filter_congr ?_ <;>
    intro r hr <;>
    simp only [matchesMain] <;>
    cases sites.isEmpty || decide (r.site_code ∈ sites) <;>
    cases taxa.isEmpty || decide (r.display_name ∈ taxa) <;>
    cases traps.isEmpty || decide (r.trap_name ∈ traps) <;>
    simp

theorem apply_filters_st_eq_filter (rows : List Row)
    (sites taxa : List String) (years : List Int) :
    apply_filters_st rows sites taxa years =
      rows.filter (matchesSt sites taxa years) := by
  simp only [apply_filters_st]
  rw [filter_if_skip, filter_if_skip, filter_if_skip]
  simp only [List.filter_filter]
  refine List.filter_congr ?_
  intro r hr
  simp only [matchesSt]
  cases sites.isEmpty || decide (r.site_code ∈ sites) <;>
    cases taxa.isEmpty || decide (r.display_name ∈ taxa) <;>
    cases years.isEmpty || yearIn years r <;>
    simp

/-- C3: both filter functions return exactly the rows matching all
supplied filters combined with logical AND (the characterizing predicates
`matchesMain` and `matchesSt` treat an empty selection as a no-op
conjunct); supplying no filters returns the table unchanged, and a
selection matching no row yields an empty result. -/
theorem c3_filter_and_semantics :
    ∀ (rows : List Row) (sites taxa traps : List String) (sd ed : Option Date)
      (years : List Int),
      (apply_filters rows sites taxa traps sd ed =
        rows.filter (matchesMain sites taxa traps sd ed)) ∧
      (apply_filters_st rows sites taxa years =
        rows.filter (matchesSt sites taxa years)) ∧
      (apply_filters rows [] [] [] none none = rows) ∧
      (apply_filters_st rows [] [] [] = rows) ∧
      (sites ≠ [] → (∀ r ∈ rows, r.site_code ∉ sites) →
        apply_filters rows sites taxa traps sd ed = []) ∧
      (years ≠ [] → (∀ r ∈ rows, yearIn years r = false) →
        apply_filters_st rows sites taxa years = []) := by
  intro rows sites taxa traps sd ed years
  refine ⟨apply_filters_eq_filter rows sites taxa traps sd ed,
    apply_filters_st_eq_filter rows sites taxa years, rfl, rfl, ?_, ?_⟩
  · intro hne hnm
    rw [apply_filters_eq_filter]
    apply List.filter_eq_nil_iff.mpr
    intro r hr
    have hs : sites.isEmpty = false := by
      cases sites
      · exact absurd rfl hne
      · rfl
    simp [matchesMain, hs, hnm r hr]
  · intro hne hnm
    rw [apply_filters_st_eq_filter]
    apply List.filter_eq_nil_iff.mpr
    intro r hr
    have hy : years.isEmpty = false := by
      cases years
      · exact absurd rfl hne
      · rfl
    simp [matchesSt, hy, hnm r hr]

/-- C3 witness: a non-matching site selection and a non-matching year
selection on the example rows both produce empty results. -/
theorem c3_filter_and_semantics_witness :
    apply_filters exampleRows ["S9"] [] [] none none = [] ∧
    apply_filters_st exampleRows [] [] [1999] = [] :=
  ⟨(c3_filter_and_semantics exampleRows ["S9"] [] [] none none []).2.2.2.2.1
      (by decide) (by decide),
   (c3_filter_and_semantics exampleRows [] [] [] none none [1999]).2.2.2.2.2
      (by decide) (by decide)⟩

/-! ### Claims C4 and C8: rows with missing derived fields -/

theorem mem_monthly_keys (rows : List Row) (r : Row) (hr : r ∈ rows) :
    (monthLabel r.sample_date, r.site_code) ∈ (monthly_ts rows).map Prod.fst := by
  unfold monthly_ts
  rw [List.map_map]
  show _ ∈ List.map (fun k => k) _
  rw [List.map_id']
  rw [List.mem_insertionSort, List.mem_dedup]
  exact List.mem_map_of_mem _ hr

theorem mem_quarter_keys (rows : List Row) (r : Row) (hr : r ∈ rows) :
    (r.region3, quarterLabel r.sample_date) ∈
      (quarter_region_agg rows).map Prod.fst := by
  unfold quarter_region_agg
  have hne : rows.isEmpty = false := by
    cases rows
    · cases hr
    · rfl
  rw [if_neg (by simp [hne])]
  rw [(List.perm_insertionSort quarterSortLE _).map Prod.fst |>.mem_iff]
  rw [List.map_map]
  show _ ∈ List.map (fun k => k) _
  rw [List.map_id']
  rw [List.mem_dedup]
  exact List.mem_map_of_mem _ hr

theorem map_agg_cons_missing (rows : List Row) (r : Row)
    (h : r.lat = none ∨ r.lon = none) :
    map_agg (r :: rows) = map_agg rows := by
  unfold map_agg
  have hp : (r.lat.isSome && r.lon.isSome) = false := by
    rcases h with h | h <;> simp [h]
  simp [List.filter_cons, hp]

theorem filterMap_keys_dated (rows : List Row) :
    (rows.filter (fun x => x.sample_date.isSome)).filterMap
        (fun r => (rowYear r).map (fun y => (r.site_code, y))) =
      rows.filterMap (fun r => (rowYear r).map (fun y => (r.site_code, y))) := by
  induction rows with
  | nil => rfl
  | cons r rs ih =>
    cases h : r.sample_date with
    | none =>
      have h1 : r.sample_date.isSome = false := by simp [h]
      have h2 : ((rowYear r).map (fun y => (r.site_code, y))) = none := by
        simp [rowYear, h]
      simp only [List.filter_cons, h1, Bool.false_eq_true, if_false,
        List.filterMap_cons, h2, ih]
    | some d =>
      have h1 : r.sample_date.isSome = true := by simp [h]
      have h2 : ((rowYear r).map (fun y => (r.site_code, y))) =
          some (r.site_code, d.year) := by simp [rowYear, h]
      simp only [List.filter_cons, h1, if_true, List.filterMap_cons, h2, ih]

theorem groupRows_dated (rows : List Row) (site : String) (yr : Int) :
    groupRows (rows.filter (fun x => x.sample_date.isSome)) site yr =
      groupRows rows site yr := by
  unfold groupRows
  rw [List.filter_filter]
  refine List.filter_congr ?_
  intro r hr
  cases h : r.sample_date <;> simp [rowYear, h]

theorem compute_diversity_dated (rows : List Row) :
    compute_diversity true true (rows.filter (fun x => x.sample_date.isSome)) =
      compute_diversity true true rows := by
  unfold compute_diversity
  rw [filterMap_keys_dated]
  refine List.map_congr_left ?_
  intro k hk
  rw [groupRows_dated]

/-- C4 counterexample: a record with an unparseable date is NOT excluded
from the monthly time-series aggregate: the month groupby (with
`dropna=False`, over the stringified month column where NaT renders as
"NaT") keeps it as the group ("NaT", site). -/
theorem c4_nat_monthly_counterexample :
    rowNaT.sample_date = none ∧
      monthly_ts [rowNaT] = [(("NaT", "S1"), 3)] :=
  ⟨rfl, by decide⟩

/-- C4 (amended): a record whose sample date fails to parse gets a missing
date; it appears in the monthly time-series aggregate under the month
label "NaT" (rather than being excluded), it is excluded from the
per-(site, year) diversity aggregate (whose groupby drops missing-year
keys), and it still appears in the raw-record table output. -/
theorem c4_unparseable_date_amended :
    ∀ (rows : List Row) (r : Row), r ∈ rows → r.sample_date = none →
      ("NaT", r.site_code) ∈ (monthly_ts rows).map Prod.fst ∧
      compute_diversity true true rows =
        compute_diversity true true
          (rows.filter (fun x => x.sample_date.isSome)) ∧
      r ∈ apply_filters rows [] [] [] none none := by
  intro rows r hr hd
  refine ⟨?_, (compute_diversity_dated rows).symm, hr⟩
  have h := mem_monthly_keys rows r hr
  rwa [hd] at h

/-- C4 witness: the amended theorem applied to the one-row table holding
the NaT record. -/
theorem c4_unparseable_date_amended_witness :
    ("NaT", "S1") ∈ (monthly_ts [rowNaT]).map Prod.fst ∧
      rowNaT ∈ apply_filters [rowNaT] [] [] [] none none :=
  ⟨(c4_unparseable_date_amended [rowNaT] rowNaT (List.mem_singleton.mpr rfl) rfl).1,
   (c4_unparseable_date_amended [rowNaT] rowNaT (List.mem_singleton.mpr rfl) rfl).2.2⟩

/-- C8: a record with a missing latitude or longitude still appears in the
filtered table, in the monthly aggregate and in the quarter-by-region
aggregate, but contributes nothing to the per-site map aggregate (whose
groupby drops missing-coordinate keys). -/
theorem c8_missing_coords_map_only :
    ∀ (rows : List Row) (r : Row), r.lat = none ∨ r.lon = none →
      r ∈ apply_filters (r :: rows) [] [] [] none none ∧
      map_agg (r :: rows) = map_agg rows ∧
      (monthLabel r.sample_date, r.site_code) ∈
        (monthly_ts (r :: rows)).map Prod.fst ∧
      (r.region3, quarterLabel r.sample_date) ∈
        (quarter_region_agg (r :: rows)).map Prod.fst := by
  intro rows r h
  exact ⟨List.mem_cons_self r rows, map_agg_cons_missing rows r h,
    mem_monthly_keys _ r (List.mem_cons_self r rows),
    mem_quarter_keys _ r (List.mem_cons_self r rows)⟩

/-- C8 witness: the record whose site has no coordinate entry is kept by
the filter and the monthly aggregate but leaves the map aggregate empty. -/
theorem c8_missing_coords_map_only_witness :
    rowNoCoord ∈ apply_filters [rowNoCoord] [] [] [] none none ∧
      map_agg [rowNoCoord] = map_agg [] ∧
      ("2021-07", "S2") ∈ (monthly_ts [rowNoCoord]).map Prod.fst :=
  ⟨(c8_missing_coords_map_only [] rowNoCoord (Or.inl rfl)).1,
   (c8_missing_coords_map_only [] rowNoCoord (Or.inl rfl)).2.1,
   (c8_missing_coords_map_only [] rowNoCoord (Or.inl rfl)).2.2.1⟩

/-! ### Claim C7: quarter ordering -/

/-- C7: in the quarter-by-region aggregate, entries are ordered so that
within any one region the quarter labels appear in the categorical order
Q1, Q2, Q3, Q4 (labels outside the categories rank last), for every input
table and hence regardless of label-encounter order. -/
theorem c7_quarter_order :
    ∀ rows : List Row,
      (quarter_region_agg rows).Pairwise
        (fun a b => a.1.1 = b.1.1 → qrank a.1.2 ≤ qrank b.1.2) := by
  intro rows
  unfold quarter_region_agg
  cases h : rows.isEmpty
  · rw [if_neg (by simp [h])]
    refine (List.sorted_insertionSort quarterSortLE _).imp ?_
    intro a b hab
    intro heq
    rcases hab with ⟨_, hq⟩ | ⟨hne, _⟩
    · exact hq
    · exact absurd heq hne
  · rw [if_pos (by simp [h])]
    exact List.Pairwise.nil

/-! ### Claim C6: top-N taxa ranking -/

theorem taxonTotals_perm (rows₁ rows₂ : List Row) (h : rows₁.Perm rows₂) :
    taxonTotals rows₁ = taxonTotals rows₂ := by
  unfold taxonTotals
  have hkeys : List.insertionSort strLE
      ((rows₁.map (fun r => r.display_name)).dedup) =
      List.insertionSort strLE ((rows₂.map (fun r => r.display_name)).dedup) := by
    refine List.eq_of_perm_of_sorted ?_
      (List.sorted_insertionSort strLE _) (List.sorted_insertionSort strLE _)
    exact (List.perm_insertionSort strLE _).trans
      (((h.map (fun r => r.display_name)).dedup).trans
        (List.perm_insertionSort strLE _).symm)
  rw [hkeys]
  refine List.map_congr_left ?_
  intro t ht
  have htot : taxonTotal rows₁ t = taxonTotal rows₂ t := by
    unfold taxonTotal
    exact ((h.filter (fun r => decide (r.display_name = t))).map
      (fun r => r.count)).sum_eq
  rw [htot]

/-- C6 counterexample: two taxa tie at total 5, the taxon "B" is
encountered first in the input, yet the ranking places "A" first: the
groupby pre-sorts keys alphabetically, so ties are not broken by
first-encountered order. -/
theorem c6_tie_order_counterexample :
    taxonTotal [rowTieB, rowTieA] "A" = taxonTotal [rowTieB, rowTieA] "B" ∧
      top_taxa true [rowTieB, rowTieA] 20 = ["A", "B"] :=
  ⟨by decide, by decide⟩

/-- C6 (amended): the top-N taxa ranking is deterministic and invariant
under any reordering of the input rows (the groupby sorts taxon keys
alphabetically before the count sort), so ties are broken by the
alphabetical key order rather than by first-encountered order. -/
theorem c6_top_taxa_amended :
    ∀ (ht : Bool) (n : Nat) (rows₁ rows₂ : List Row), rows₁.Perm rows₂ →
      top_taxa ht rows₁ n = top_taxa ht rows₂ n := by
  intro ht n rows₁ rows₂ h
  cases ht
  · rfl
  · unfold top_taxa
    rw [taxonTotals_perm rows₁ rows₂ h]

/-- C6 witness: the two encounter orders of the tied rows produce the same
ranking. -/
theorem c6_top_taxa_amended_witness :
    top_taxa true [rowTieB, rowTieA] 20 = top_taxa true [rowTieA, rowTieB] 20 :=
  c6_top_taxa_amended true 20 _ _ (List.Perm.swap rowTieA rowTieB [])

/-! ### Claim C5: sign and zero locus of the Shannon index -/

theorem list_sum_nonpos {l : List Real} (h : ∀ x ∈ l, x ≤ 0) : l.sum ≤ 0 := by
  induction l with
  | nil => simp
  | cons a t ih =>
    simp only [List.sum_cons]
    have ha := h a (List.mem_cons_self a t)
    have ht := ih (fun x hx => h x (List.mem_cons_of_mem a hx))
    linarith

theorem shannon_term_nonpos {c S : Rat} (hc : 0 < c) (hcS : c ≤ S) :
    ((c : Real) / ((S : Rat) : Real)) *
      Real.log ((c : Real) / ((S : Rat) : Real)) ≤ 0 := by
  have hS : (0 : Rat) < S := lt_of_lt_of_le hc hcS
  have hcR : (0 : Real) < (c : Real) := by exact_mod_cast hc
  have hSR : (0 : Real) < ((S : Rat) : Real) := by exact_mod_cast hS
  have hp : (0 : Real) < (c : Real) / ((S : Rat) : Real) := div_pos hcR hSR
  have hp1 : (c : Real) / ((S : Rat) : Real) ≤ 1 := by
    rw [div_le_one hSR]
    exact_mod_cast hcS
  have hlog : Real.log ((c : Real) / ((S : Rat) : Real)) ≤ 0 :=
    Real.log_nonpos hp.le hp1
  exact mul_nonpos_iff.mpr (Or.inl ⟨hp.le, hlog⟩)

theorem shannon_term_neg {c S : Rat} (hc : 0 < c) (hcS : c < S) :
    ((c : Real) / ((S : Rat) : Real)) *
      Real.log ((c : Real) / ((S : Rat) : Real)) < 0 := by
  have hS : (0 : Rat) < S := lt_trans hc hcS
  have hcR : (0 : Real) < (c : Real) := by exact_mod_cast hc
  have hSR : (0 : Real) < ((S : Rat) : Real) := by exact_mod_cast hS
  have hp : (0 : Real) < (c : Real) / ((S : Rat) : Real) := div_pos hcR hSR
  have hp1 : (c : Real) / ((S : Rat) : Real) < 1 := by
    rw [div_lt_one hSR]
    exact_mod_cast hcS
  exact mul_neg_of_pos_of_neg hp (Real.log_neg hp hp1)

theorem shannonOfPos_nonneg_zero (pos : List Rat)
    (hpos : ∀ c ∈ pos, 0 < c) :
    0 ≤ shannonOfPos pos ∧ (shannonOfPos pos = 0 ↔ pos.length ≤ 1) := by
  cases pos with
  | nil => simp [shannonOfPos]
  | cons c rest =>
    have hterm : ∀ x ∈ c :: rest,
        ((x : Real) / (((c :: rest).sum : Rat) : Real)) *
          Real.log ((x : Real) / (((c :: rest).sum : Rat) : Real)) ≤ 0 := by
      intro x hx
      exact shannon_term_nonpos (hpos x hx)
        (List.single_le_sum (fun y hy => (hpos y hy).le) x hx)
    have hsum : ((c :: rest).map (fun x : Rat =>
        ((x : Real) / (((c :: rest).sum : Rat) : Real)) *
          Real.log ((x : Real) / (((c :: rest).sum : Rat) : Real)))).sum ≤ 0 := by
      apply list_sum_nonpos
      intro y hy
      obtain ⟨x, hx, rfl⟩ := List.mem_map.mp hy
      exact hterm x hx
    have hval : shannonOfPos (c :: rest) =
        -(((c :: rest).map (fun x : Rat =>
          ((x : Real) / (((c :: rest).sum : Rat) : Real)) *
            Real.log ((x : Real) / (((c :: rest).sum : Rat) : Real)))).sum) := by
      unfold shannonOfPos
      rw [if_neg (List.cons_ne_nil c rest)]
    constructor
    · rw [hval]
      linarith
    · cases rest with
      | nil =>
        constructor
        · intro _
          simp
        · intro _
          rw [hval]
          have hc := hpos c (List.mem_cons_self c [])
          have hcR : ((c : Rat) : Real) ≠ 0 := by
            have h0 : (0 : Real) < (c : Real) := by exact_mod_cast hc
            exact ne_of_gt h0
          simp [List.sum_cons, List.sum_nil, div_self hcR]
      | cons d rest2 =>
        have hlen : ¬ (c :: d :: rest2).length ≤ 1 := by
          simp [List.length_cons]
        have hrest_pos : (0 : Rat) < (d :: rest2).sum :=
          List.sum_pos _ (fun y hy => hpos y (List.mem_cons_of_mem c hy))
            (List.cons_ne_nil d rest2)
        have hcS : c < (c :: d :: rest2).sum := by
          rw [List.sum_cons]
          linarith
        have hterm_c : ((c : Real) / (((c :: d :: rest2).sum : Rat) : Real)) *
            Real.log ((c : Real) / (((c :: d :: rest2).sum : Rat) : Real)) < 0 :=
          shannon_term_neg (hpos c (List.mem_cons_self c _)) hcS
        have hsum_rest : (((d :: rest2).map (fun x : Rat =>
            ((x : Real) / (((c :: d :: rest2).sum : Rat) : Real)) *
              Real.log ((x : Real) /
                (((c :: d :: rest2).sum : Rat) : Real)))).sum) ≤ 0 := by
          apply list_sum_nonpos
          intro y hy
          obtain ⟨x, hx, rfl⟩ := List.mem_map.mp hy
          exact hterm x (List.mem_cons_of_mem c hx)
        have hstrict : 0 < shannonOfPos (c :: d :: rest2) := by
          rw [hval, List.map_cons, List.sum_cons]
          linarith
        constructor
        · intro h0
          exact absurd h0.symm (ne_of_lt hstrict)
        · intro hle
          exact absurd hle hlen

/-- C5 counterexample: the all-zero group has no taxon with nonzero count,
yet its Shannon index is 0.0 — so "0.0 exactly when only one taxon has a
nonzero count" fails in the only-if direction. -/
theorem c5_shannon_zero_counterexample :
    shannon_index [(0 : Rat), 0] = 0 ∧
      (([(0 : Rat), 0]).filter (fun c => decide (¬ c = 0))).length = 0 := by
  constructor
  · rfl
  · decide

/-- C5 (amended): the Shannon index is non-negative for every group of
counts, and it is 0.0 exactly when at most one entry of the group is
strictly positive (negative or zero entries are discarded by the
positivity filter). -/
theorem c5_shannon_amended :
    ∀ counts : List Rat,
      0 ≤ shannon_index counts ∧
      (shannon_index counts = 0 ↔
        (counts.filter (fun c => decide (0 < c))).length ≤ 1) := by
  intro counts
  have hpos : ∀ c ∈ counts.filter (fun c => decide (0 < c)), 0 < c := by
    intro c hc
    exact of_decide_eq_true (List.mem_filter.mp hc).2
  unfold shannon_index
  exact shannonOfPos_nonneg_zero (counts.filter (fun c => decide (0 < c))) hpos

/-! ### Claim C1: the diversity computation -/

theorem shannonOfPos_perm {l₁ l₂ : List Rat} (hp : l₁.Perm l₂) :
    shannonOfPos l₁ = shannonOfPos l₂ := by
  unfold shannonOfPos
  by_cases h1 : l₁ = []
  · have h2 : l₂ = [] := by
      subst h1
      exact hp.nil_eq.symm
    rw [if_pos h1, if_pos h2]
  · have h2 : l₂ ≠ [] := fun h2 => h1 (by subst h2; exact hp.eq_nil)
    rw [if_neg h1, if_neg h2, hp.sum_eq]
    exact congrArg Neg.neg ((hp.map _).sum_eq)

theorem shannonSpec_eq_ofPos (g : List Row) :
    shannonSpec g =
      shannonOfPos ((shannonSpecTaxa g).map (fun t => (taxonTotal g t : Rat))) := by
  unfold shannonSpec shannonOfPos
  simp only [List.map_eq_nil_iff, List.map_map]
  rfl

theorem taxonTotal_nonneg (g : List Row) (h : ∀ r ∈ g, 0 ≤ r.count)
    (t : String) : 0 ≤ taxonTotal g t := by
  unfold taxonTotal
  apply List.sum_nonneg
  intro x hx
  obtain ⟨r, hr, rfl⟩ := List.mem_map.mp hx
  exact h r (List.mem_filter.mp hr).1

theorem shannon_eq_shannonSpec (g : List Row) (h : ∀ r ∈ g, 0 ≤ r.count) :
    shannon_index ((taxonCounts g).map (fun c : Int => (c : Rat))) =
      shannonSpec g := by
  unfold shannon_index taxonCounts
  rw [List.map_map, List.filter_map, shannonSpec_eq_ofPos]
  have hq : (List.insertionSort strLE
        ((g.map (fun r => r.display_name)).dedup)).filter
        ((fun c : Rat => decide (0 < c)) ∘
          ((fun c : Int => (c : Rat)) ∘ (taxonTotal g))) =
      (List.insertionSort strLE ((g.map (fun r => r.display_name)).dedup)).filter
        (fun t => decide (¬ taxonTotal g t = 0)) := by
    refine List.filter_congr ?_
    intro t ht
    have hnn := taxonTotal_nonneg g h t
    simp only [Function.comp]
    refine decide_eq_decide.mpr ?_
    constructor
    · intro hlt
      have h2 : (0 : Int) < taxonTotal g t := by exact_mod_cast hlt
      omega
    · intro hne
      have h2 : (0 : Int) < taxonTotal g t := by omega
      exact_mod_cast h2
  rw [hq]
  refine shannonOfPos_perm ?_
  refine List.Perm.map _ ?_
  exact (List.perm_insertionSort strLE _).filter _

theorem shannon_five_five :
    shannon_index (([5, 5] : List Int).map (fun c : Int => (c : Rat))) =
      Real.log 2 := by
  have hm : (([5, 5] : List Int).map (fun c : Int => (c : Rat))) =
      [(5 : Rat), 5] := by norm_num
  rw [hm]
  unfold shannon_index
  have hf : ([(5 : Rat), 5].filter (fun c => decide (0 < c))) =
      [(5 : Rat), 5] := by decide
  rw [hf]
  unfold shannonOfPos
  rw [if_neg (by simp)]
  have hs : (([(5 : Rat), 5]).sum : Rat) = 10 := by norm_num
  rw [hs]
  have hd : ((5 : Rat) : Real) / ((10 : Rat) : Real) = (2 : Real)⁻¹ := by
    norm_num
  simp only [List.map_cons, List.map_nil, List.sum_cons, List.sum_nil, hd]
  rw [Real.log_inv]
  ring

/-- C1: the diversity computation is correct: (1) on the two-row example
{(S1, Ant, 5, 2020-01-15), (S1, Bee, 5, 2020-01-20)} it returns exactly
one entry, for (S1, 2020), with richness 2 and Shannon index ln 2; (2)
every (site, year) group with at least one (dated) row produces an entry;
(3) for tables of non-negative counts, every entry carries richness equal
to the number of distinct taxa of its group and a Shannon index equal to
the specification formula (negative sum of p ln p over the taxa of nonzero
total, exactly 0.0 when the group has no positive counts). -/
theorem c1_diversity_correct :
    (compute_diversity true true exampleRows =
      [DivRow.mk "S1" 2020 2 (Real.log 2)]) ∧
    (∀ (rows : List Row) (site : String) (yr : Int),
      (∃ r ∈ rows, r.site_code = site ∧ rowYear r = some yr) →
      ∃ e ∈ compute_diversity true true rows,
        e.site_code = site ∧ e.year = yr) ∧
    (∀ rows : List Row, (∀ r ∈ rows, 0 ≤ r.count) →
      ∀ e ∈ compute_diversity true true rows,
        e.richness = groupTaxaCard (groupRows rows e.site_code e.year) ∧
        e.shannon = shannonSpec (groupRows rows e.site_code e.year)) := by
  refine ⟨?_, ?_, ?_⟩
  · have h1 : compute_diversity true true exampleRows =
        [DivRow.mk "S1" 2020 2
          (shannon_index (([5, 5] : List Int).map (fun c : Int => (c : Rat))))] := by
      rfl
    rw [h1, shannon_five_five]
  · rintro rows site yr ⟨r, hr, hsite, hyr⟩
    have hkey : (site, yr) ∈ (rows.filterMap (fun r =>
        (rowYear r).map (fun y => (r.site_code, y)))).dedup := by
      rw [List.mem_dedup, List.mem_filterMap]
      refine ⟨r, hr, ?_⟩
      rw [hyr]
      simp [hsite]
    have hkey2 : (site, yr) ∈ List.insertionSort siteYearLE
        ((rows.filterMap (fun r =>
          (rowYear r).map (fun y => (r.site_code, y)))).dedup) := by
      rw [List.mem_insertionSort]
      exact hkey
    exact ⟨_, List.mem_map_of_mem _ hkey2, rfl, rfl⟩
  · intro rows h e he
    have he2 : e ∈ (List.insertionSort siteYearLE ((rows.filterMap (fun r =>
        (rowYear r).map (fun y => (r.site_code, y)))).dedup)).map
        (fun k : String × Int =>
          DivRow.mk k.1 k.2
            (((groupRows rows k.1 k.2).map (fun r => r.display_name)).dedup).length
            (shannon_index ((taxonCounts (groupRows rows k.1 k.2)).map
              (fun c : Int => (c : Rat))))) := he
    obtain ⟨k, hk, rfl⟩ := List.mem_map.mp he2
    constructor
    · show (((groupRows rows k.1 k.2).map (fun r => r.display_name)).dedup).length =
        groupTaxaCard (groupRows rows k.1 k.2)
      unfold groupTaxaCard
      exact (List.card_toFinset _).symm
    · show shannon_index ((taxonCounts (groupRows rows k.1 k.2)).map
          (fun c : Int => (c : Rat))) = shannonSpec (groupRows rows k.1 k.2)
      refine shannon_eq_shannonSpec _ ?_
      intro r hr
      exact h r (List.mem_filter.mp hr).1

/-- C1 witness: the general conjuncts of the diversity theorem applied to
the concrete example rows, with each hypothesis discharged there. -/
theorem c1_diversity_correct_witness :
    (∃ e ∈ compute_diversity true true exampleRows,
      e.site_code = "S1" ∧ e.year = 2020) ∧
    (∀ e ∈ compute_diversity true true exampleRows,
      e.richness = groupTaxaCard (groupRows exampleRows e.site_code e.year) ∧
      e.shannon = shannonSpec (groupRows exampleRows e.site_code e.year)) :=
  ⟨c1_diversity_correct.2.1 exampleRows "S1" 2020
      ⟨exRow1, List.mem_cons_self exRow1 [exRow2], rfl, rfl⟩,
   c1_diversity_correct.2.2 exampleRows (by decide)⟩

end CaplterDash
